import Mathlib

/-!
A shallow embedding of the LearnNest Express/MongoDB backend
(`src/index.js` and its snapshot files), restricted to the parts the
verified claims are about:

* the Firebase bearer-token authentication middleware `verifyFirebaseToken`,
* the role middlewares `verifyAdmin` / `verifyTeacher`,
* the per-route middleware chains as registered on the Express app,
* the CRUD handlers `POST /user` (both the latest snapshot's version and
  the earliest one from src/unnamed/part_000), `GET /users/search`,
  `PATCH /teacher-request-status/:id`, `POST /teacher-request`,
  `GET /approved-classes-pagination`, `GET /top-enrolled-classes`,
  `GET /admin-add-class`, `POST /create-payment-intent`.

MongoDB collections are modelled as Lean lists in natural (insertion)
order; `findOne` is the first match, `updateOne` with a `$set` document
updates the first matching record, `insertOne` appends, and
`countDocuments` counts matching records.  The Firebase verification
oracle and the Stripe payment provider are opaque function parameters.
Timestamps (`new Date().toISOString()`) are modelled as `Nat` parameters.
-/

namespace LearnNest
/-- A persisted user record (`users` collection).  `extra` stands for all
request-body fields that the server code never touches. -/
structure UserDoc where
  email : String
  role : String
  status : String
  create_at : Nat
  last_loggedIn : Nat
  extra : String
deriving DecidableEq, Repr

/-- A persisted teacher request (`teachOnLearnNest` collection); `tid` is
the Mongo `_id`. -/
structure TReq where
  tid : String
  email : String
  status : String
  create_at : Nat
  last_request_at : Nat
  extra : String
deriving DecidableEq, Repr

/-- A persisted class record (`all-class` collection); `cid` is the Mongo
`_id`.  The price is modelled as an integer amount of currency units. -/
structure ClassDoc where
  cid : String
  email : String
  status : String
  enrolled : Nat
  price : Int
  extra : String
deriving DecidableEq, Repr

/-- `updateOne(filter, set)`: apply `f` to the first record satisfying
`p`, leaving everything else unchanged (MongoDB `updateOne` semantics on
a list in natural order). -/
def updateOneSet (p : α → Bool) (f : α → α) : List α → List α
  | [] => []
  | x :: xs => if p x then f x :: xs else x :: updateOneSet p f xs

/-- `countDocuments(filter)` on a collection modelled as a list. -/
def countDocuments (p : α → Bool) (l : List α) : Nat :=
  (l.filter p).length

/-! ### The authentication gate (`verifyFirebaseToken`, src/index.js 54-76) -/

/-- Whether the first list is an initial segment of the second (used to
model JavaScript `String.prototype.startsWith` on character lists). -/
def leadChars : List Char → List Char → Bool
  | [], _ => true
  | _ :: _, [] => false
  | p :: ps, c :: cs => p == c && leadChars ps cs

/-- `authHeader.startsWith('Bearer ')`. -/
def startsWithBearer (s : String) : Bool :=
  leadChars "Bearer ".data s.data

/-- JavaScript `split(' ')`: split a character list on every single
space, keeping empty segments. -/
def splitSp : List Char → List (List Char)
  | [] => [[]]
  | c :: cs =>
    match splitSp cs with
    | [] => if c = ' ' then [[], [c]] else [[c]]
    | w :: ws => if c = ' ' then [] :: w :: ws else (c :: w) :: ws

/-- `authHeader.split(' ')[1]`, the token part after the first space of
the Authorization header (`''` when the segment is empty). -/
def bearerToken (s : String) : String :=
  String.mk (((splitSp s.data).drop 1).headD [])

/-- Outcome of the authentication middleware: either an HTTP status that
short-circuits the chain, or the decoded email attached to `req.decoded`;
`oracleInvoked` records whether `admin.auth().verifyIdToken` was called. -/
structure AuthStep where
  result : Except Nat String
  oracleInvoked : Bool
deriving Repr

/-- `verifyFirebaseToken` (src/index.js 54-76): reject with 401 when the
Authorization header is absent, does not start with `Bearer `, or has an
empty token part — all before invoking the verification oracle; otherwise
ask the oracle, attaching the decoded email on success and answering 401
on failure. -/
def verifyFirebaseToken (oracle : String → Option String)
    (authHeader : Option String) : AuthStep :=
  match authHeader with
  | none => ⟨Except.error 401, false⟩
  | some s =>
    if startsWithBearer s then
      let token := bearerToken s
      if token = "" then ⟨Except.error 401, false⟩
      else
        match oracle token with
        | some email => ⟨Except.ok email, true⟩
        | none => ⟨Except.error 401, true⟩
    else ⟨Except.error 401, false⟩

/-- A well-formed bearer header: present, with the `Bearer ` scheme and a
non-empty token part. -/
def wellFormedBearer : Option String → Bool
  | none => false
  | some s => startsWithBearer s && !(bearerToken s == "")

/-! ### The role gates (`verifyAdmin` src/index.js 79-87,
`verifyTeacher` src/index.js 90-98) -/

/-- `verifyAdmin`: look up the user record for the decoded email; 403
when no record exists or its role is not `admin`. -/
def verifyAdmin (users : List UserDoc) (decodedEmail : String) :
    Except Nat Unit :=
  match users.find? (fun u => u.email == decodedEmail) with
  | none => Except.error 403
  | some u => if u.role ≠ "admin" then Except.error 403 else Except.ok ()

/-- `verifyTeacher`: look up the user record for the decoded email; 403
when no record exists or its role is not `teacher`. -/
def verifyTeacher (users : List UserDoc) (decodedEmail : String) :
    Except Nat Unit :=
  match users.find? (fun u => u.email == decodedEmail) with
  | none => Except.error 403
  | some u => if u.role ≠ "teacher" then Except.error 403 else Except.ok ()

/-! ### The middleware chains as registered on the Express app -/

/-- The three middleware functions that appear in route registrations. -/
inductive Gate where
  | auth
  | admin
  | teacher
deriving DecidableEq, Repr

/-- One route registration: method, path, and the middleware chain in
declaration order (the handler body itself comes after all gates). -/
structure Route where
  method : String
  path : String
  gates : List Gate
deriving DecidableEq, Repr

/-- The route table of the latest snapshot (src/index.js, first
document, lines 102-712 plus the root route), in registration order. -/
def routes : List Route :=
  [⟨"GET", "/users/search", [Gate.auth, Gate.admin]⟩,
   ⟨"POST", "/user", []⟩,
   ⟨"PATCH", "/make-admin/:id", [Gate.auth, Gate.admin]⟩,
   ⟨"GET", "/all-request", [Gate.auth, Gate.admin]⟩,
   ⟨"PATCH", "/teacher-request-status/:id", [Gate.auth, Gate.admin]⟩,
   ⟨"GET", "/admin-add-class", [Gate.auth, Gate.admin]⟩,
   ⟨"PATCH", "/class-request-status/:id", [Gate.auth, Gate.admin]⟩,
   ⟨"GET", "/top-enrolled-classes", []⟩,
   ⟨"POST", "/teacher-request", [Gate.auth]⟩,
   ⟨"GET", "/get-all-classes/:email", [Gate.auth, Gate.teacher]⟩,
   ⟨"GET", "/all-enrolled/:id", [Gate.auth, Gate.teacher]⟩,
   ⟨"GET", "/all-assignment-count/:id", [Gate.auth, Gate.teacher]⟩,
   ⟨"POST", "/add-class", [Gate.auth, Gate.teacher]⟩,
   ⟨"GET", "/update-data-find/:id", []⟩,
   ⟨"PUT", "/update-class/:id", []⟩,
   ⟨"POST", "/add-assignment", [Gate.auth, Gate.teacher]⟩,
   ⟨"DELETE", "/my-class-delete/:id", [Gate.auth, Gate.teacher]⟩,
   ⟨"GET", "/approved-class-details/:id", []⟩,
   ⟨"GET", "/user/role/:email", [Gate.auth]⟩,
   ⟨"GET", "/approved-classes-pagination", []⟩,
   ⟨"POST", "/create-payment-intent", [Gate.auth]⟩,
   ⟨"POST", "/enroll-info", [Gate.auth]⟩,
   ⟨"PATCH", "/enrolled-update/:id", [Gate.auth]⟩,
   ⟨"GET", "/my-all-classes/:email", [Gate.auth]⟩,
   ⟨"GET", "/assignment-get/:id", [Gate.auth]⟩,
   ⟨"GET", "/get-class-for-assignment/:id", [Gate.auth]⟩,
   ⟨"POST", "/ter-review", []⟩,
   ⟨"GET", "/get-ter-report/:email", []⟩,
   ⟨"GET", "/", []⟩]

/-- The route table of the snapshot src/unnamed/part_002, in
registration order. -/
def routesPart002 : List Route :=
  [⟨"GET", "/users/search", [Gate.auth, Gate.admin]⟩,
   ⟨"POST", "/user", []⟩,
   ⟨"PATCH", "/make-admin/:id", [Gate.auth, Gate.admin]⟩,
   ⟨"GET", "/all-request", [Gate.auth, Gate.admin]⟩,
   ⟨"PATCH", "/teacher-request-status/:id", [Gate.auth, Gate.admin]⟩,
   ⟨"GET", "/admin-add-class", [Gate.auth, Gate.admin]⟩,
   ⟨"PATCH", "/class-request-status/:id", [Gate.auth, Gate.admin]⟩,
   ⟨"POST", "/teacher-request", [Gate.auth]⟩,
   ⟨"GET", "/get-all-classes/:email", [Gate.auth]⟩,
   ⟨"POST", "/add-class", [Gate.auth, Gate.teacher]⟩,
   ⟨"POST", "/add-assignment", [Gate.auth, Gate.teacher]⟩,
   ⟨"DELETE", "/my-class-delete/:id", [Gate.auth, Gate.teacher]⟩,
   ⟨"GET", "/approved-class-details/:id", []⟩,
   ⟨"GET", "/user/role/:email", [Gate.auth]⟩,
   ⟨"GET", "/approved-classes-pagination", []⟩,
   ⟨"GET", "/", []⟩]

/-- All route registrations the claims quantify over. -/
def allRoutes : List Route := routes ++ routesPart002

/-- How a middleware chain can stop before the handler: an HTTP error
response, or a thrown TypeError (`crash`) from reading
`req.decoded.email` when `req.decoded` was never populated. -/
inductive Failure where
  | http (code : Nat)
  | crash
deriving DecidableEq, Repr

/-- Observable effects of processing one request: whether the identity
oracle was invoked, how many user-record lookups the role gates made,
and whether the handler body ran. -/
structure Trace where
  oracleInvoked : Bool
  storeReads : Nat
  handlerRan : Bool
deriving DecidableEq, Repr

/-- Run a middleware chain in declaration order with stop-on-first-
failure, threading `req.decoded` (the verified email) and the effect
trace.  A role gate reached with `req.decoded` unset crashes, reading no
record. -/
def runGates (oracle : String → Option String) (users : List UserDoc)
    (authHeader : Option String) :
    List Gate → Option String → Trace →
      Except Failure (Option String) × Trace
  | [], ctx, tr => (Except.ok ctx, tr)
  | Gate.auth :: rest, _, tr =>
    let step := verifyFirebaseToken oracle authHeader
    let tr1 := { tr with oracleInvoked := tr.oracleInvoked || step.oracleInvoked }
    (match step.result with
     | Except.error c => (Except.error (Failure.http c), tr1)
     | Except.ok email => runGates oracle users authHeader rest (some email) tr1)
  | Gate.admin :: rest, ctx, tr =>
    (match ctx with
     | none => (Except.error Failure.crash, tr)
     | some email =>
       let tr1 := { tr with storeReads := tr.storeReads + 1 }
       match verifyAdmin users email with
       | Except.error c => (Except.error (Failure.http c), tr1)
       | Except.ok _ => runGates oracle users authHeader rest (some email) tr1)
  | Gate.teacher :: rest, ctx, tr =>
    (match ctx with
     | none => (Except.error Failure.crash, tr)
     | some email =>
       let tr1 := { tr with storeReads := tr.storeReads + 1 }
       match verifyTeacher users email with
       | Except.error c => (Except.error (Failure.http c), tr1)
       | Except.ok _ => runGates oracle users authHeader rest (some email) tr1)

/-- Process a request through a route's full chain: run the gates from
an empty context and, when they all pass, run the handler body. -/
def runRoute (oracle : String → Option String) (users : List UserDoc)
    (authHeader : Option String) (gates : List Gate) :
    Except Failure (Option String) × Trace :=
  match runGates oracle users authHeader gates none ⟨false, 0, false⟩ with
  | (Except.ok ctx, tr) => (Except.ok ctx, { tr with handlerRan := true })
  | (Except.error e, tr) => (Except.error e, tr)

/-- Scan of a middleware chain checking that every role gate is preceded
by the authentication gate; `seen` records whether the authentication
gate has already occurred. -/
def rolePrecededByAuth : List Gate → Bool → Bool
  | [], _ => true
  | Gate.auth :: rest, _ => rolePrecededByAuth rest true
  | Gate.admin :: rest, seen => seen && rolePrecededByAuth rest seen
  | Gate.teacher :: rest, seen => seen && rolePrecededByAuth rest seen

/-! ### `POST /user` (src/index.js 135-162) -/

/-- The request body of `POST /user`: the business key `email` and the
remaining fields, which the handler passes through untouched. -/
structure UserReqBody where
  email : String
  extra : String
deriving DecidableEq, Repr

/-- `POST /user`: stamp the body with role `student`, status
`not-verified` and both timestamps, look the email up; when a record
already exists, set only its `last_loggedIn` field and answer 200 with
`inserted: false`; otherwise insert the stamped record.  `now` is the
handler-entry timestamp and `nowUpd` the timestamp taken at the update
call. -/
def postUser (users : List UserDoc) (body : UserReqBody)
    (now nowUpd : Nat) : List UserDoc × Nat × Bool :=
  let userData : UserDoc :=
    ⟨body.email, "student", "not-verified", now, now, body.extra⟩
  match users.find? (fun u => u.email == body.email) with
  | some _ =>
    (updateOneSet (fun u => u.email == body.email)
      (fun u => { u with last_loggedIn := nowUpd }) users, 200, false)
  | none => (users ++ [userData], 200, true)

/-- A user record of the earliest snapshot (src/unnamed/part_000),
whose `POST /user` never sets a `status` field. -/
structure UserDocV0 where
  email : String
  role : String
  create_at : Nat
  last_loggedIn : Nat
  extra : String
deriving DecidableEq, Repr

/-- `POST /user` in the earliest snapshot (src/unnamed/part_000 34-57):
stamp the body with role `student` and both timestamps (no status);
when a record with the email exists, refresh its `last_loggedIn` — but
with no early return, so `insertOne(userData)` still runs and the
response is the insert result, not an `already exists` message. -/
def postUserPart000 (users : List UserDocV0) (body : UserReqBody)
    (now nowUpd : Nat) : List UserDocV0 :=
  let userData : UserDocV0 := ⟨body.email, "student", now, now, body.extra⟩
  match users.find? (fun u => u.email == body.email) with
  | some _ =>
    updateOneSet (fun u => u.email == body.email)
      (fun u => { u with last_loggedIn := nowUpd }) users ++ [userData]
  | none => users ++ [userData]

/-! ### `POST /teacher-request` (src/index.js 288-315) -/

/-- The request body of `POST /teacher-request`. -/
structure TReqBody where
  email : String
  extra : String
deriving DecidableEq, Repr

/-- `POST /teacher-request`: stamp the body with status `pending` and
both timestamps; when a request for the email already exists, set only
its `status` back to `pending` and refresh `last_request_at`, answering
200 `Already exists`; otherwise insert the stamped record (`newId` is
the generated `_id`). -/
def postTeacherRequest (treqs : List TReq) (body : TReqBody)
    (newId : String) (now nowUpd : Nat) : List TReq × Nat × Bool :=
  let teachOnData : TReq := ⟨newId, body.email, "pending", now, now, body.extra⟩
  match treqs.find? (fun t => t.email == body.email) with
  | some _ =>
    (updateOneSet (fun t => t.email == body.email)
      (fun t => { t with status := "pending", last_request_at := nowUpd })
      treqs, 200, false)
  | none => (treqs ++ [teachOnData], 200, true)

/-! ### `PATCH /teacher-request-status/:id` (src/index.js 204-233) -/

/-- `PATCH /teacher-request-status/:id`: two sequential `updateOne`
calls with no transaction — first set the teacher request's status by
`_id`, then set the role of the user record matching the body's email.
`secondUpdateFails` models the second store call throwing; the handler's
catch then answers 500 while the first update has already been
applied. -/
def teacherRequestStatusUpdate (treqs : List TReq) (users : List UserDoc)
    (id status role email : String) (secondUpdateFails : Bool) :
    List TReq × List UserDoc × Nat :=
  let treqs1 := updateOneSet (fun t => t.tid == id)
    (fun t => { t with status := status }) treqs
  if secondUpdateFails then
    (treqs1, users, 500)
  else
    (treqs1, updateOneSet (fun u => u.email == email)
      (fun u => { u with role := role }) users, 200)

/-! ### `GET /approved-classes-pagination` (src/index.js 511-533) -/

/-- `parseInt(req.query.limit) || 6`: absent (`parseInt` gives `NaN`,
falsy) or `0` fall back to the default page size 6. -/
def jsLimit : Option Nat → Nat
  | none => 6
  | some l => if l = 0 then 6 else l

/-- The response shape of the pagination endpoint. -/
structure PageResp where
  total : Nat
  pageNo : Nat
  totalPages : Nat
  data : List ClassDoc
deriving DecidableEq, Repr

/-- `GET /approved-classes-pagination`: `pageNo = parseInt(req.query.page)`
with no fallback, so an absent or non-numeric `page` makes it `NaN`;
`skip = pageNo * limit` is then `NaN`, the find query fails, and the
handler's catch answers 500 — modelled as `none`.  With a numeric page,
the total is the count of `status: 'approved'` records, `totalPages` is
`Math.ceil(total / limit)` and the data is the `skip/limit` slice of the
same filtered collection. -/
def approvedClassesPagination (classes : List ClassDoc)
    (page limitParam : Option Nat) : Option PageResp :=
  let limit := jsLimit limitParam
  match page with
  | none => none
  | some p =>
    let approved := classes.filter (fun c => c.status == "approved")
    some ⟨approved.length, p, (approved.length + limit - 1) / limit,
      (approved.drop (p * limit)).take limit⟩

/-- A sample store with thirteen approved classes (in insertion order)
and one pending class. -/
def paginationStore : List ClassDoc :=
  ((List.range 13).map
    (fun i => ⟨"c", "t@x.com", "approved", 0, Int.ofNat i, ""⟩)) ++
  [⟨"p", "t@x.com", "pending", 0, 99, ""⟩]

/-! ### Public and admin class listings
(`GET /top-enrolled-classes` src/index.js 271-284,
`GET /admin-add-class` src/index.js 236-244) -/

/-- Insert a class into a list sorted by `enrolled` descending
(modelling the Mongo `sort` on `enrolled: -1`). -/
def insertEnrolledDesc (c : ClassDoc) : List ClassDoc → List ClassDoc
  | [] => [c]
  | d :: ds =>
    if d.enrolled < c.enrolled then c :: d :: ds
    else d :: insertEnrolledDesc c ds

/-- Sort classes by `enrolled` descending. -/
def sortEnrolledDesc : List ClassDoc → List ClassDoc
  | [] => []
  | c :: cs => insertEnrolledDesc c (sortEnrolledDesc cs)

/-- `GET /top-enrolled-classes` (public, no gate): the classes with
`enrolled > 0`, sorted by `enrolled` descending, limited to 6 — with no
filter on `status`. -/
def topEnrolledClasses (classes : List ClassDoc) : List ClassDoc :=
  (sortEnrolledDesc (classes.filter (fun c => 0 < c.enrolled))).take 6

/-- `GET /admin-add-class` (admin gate): all class records, regardless
of status. -/
def adminAddClass (classes : List ClassDoc) : List ClassDoc := classes

/-! ### `POST /create-payment-intent` (src/index.js 536-570) -/

/-- Outcome of `stripe.paymentIntents.create`: a created intent (of
which the handler only ever uses `client_secret`) or a thrown error. -/
inductive ProviderResult where
  | ok (clientSecret : String)
  | err (msg : String)
deriving DecidableEq, Repr

/-- The handler's possible responses: 404 when no class matches the
course id, a success body containing only `clientSecret`, or a 500 with
the provider's error message. -/
inductive PayResp where
  | notFound
  | success (clientSecret : String)
  | providerError (msg : String)
deriving DecidableEq, Repr

/-- HTTP status of each `POST /create-payment-intent` response. -/
def payStatus : PayResp → Nat
  | PayResp.notFound => 404
  | PayResp.success _ => 200
  | PayResp.providerError _ => 500

/-- One execution of `POST /create-payment-intent`: the response,
whether the payment provider was called, and with which amount. -/
structure PayExec where
  resp : PayResp
  providerCalled : Bool
  amountArg : Option Int
deriving DecidableEq, Repr

/-- `POST /create-payment-intent`: find the class by the body's
`courseId`; answer 404 before any provider call when none matches;
otherwise create an intent for `price * 100` minor units and answer
with only the client secret, or 500 when the provider throws. -/
def createPaymentIntent (classes : List ClassDoc) (courseId : String)
    (provider : Int → ProviderResult) : PayExec :=
  match classes.find? (fun c => c.cid == courseId) with
  | none => ⟨PayResp.notFound, false, none⟩
  | some c =>
    let amount := c.price * 100
    match provider amount with
    | ProviderResult.ok secret => ⟨PayResp.success secret, true, some amount⟩
    | ProviderResult.err m => ⟨PayResp.providerError m, true, some amount⟩

/-! ### `GET /users/search` (src/index.js 102-132) -/

/-- ASCII lower-casing of one character (enough to model the
case-insensitive `i` flag on the email queries appearing here). -/
def lowerChar (c : Char) : Char :=
  if 65 ≤ c.toNat ∧ c.toNat ≤ 90 then Char.ofNat (c.toNat + 32) else c

/-- Whether `pat` occurs as a contiguous run inside the second list. -/
def occursChars (pat : List Char) : List Char → Bool
  | [] => pat.isEmpty
  | c :: cs => leadChars pat (c :: cs) || occursChars pat cs

/-- `new RegExp(emailQuery, 'i').test(email)` for the plain substring
patterns this endpoint is used with: case-insensitive containment. -/
def regexTestCI (pat s : String) : Bool :=
  occursChars (pat.data.map lowerChar) (s.data.map lowerChar)

/-- `GET /users/search`: with a truthy (non-empty) `email` query
parameter, the user records matching the case-insensitive regex on
email, limited to 10; otherwise all user records except those whose
email equals the caller's decoded email. -/
def usersSearch (users : List UserDoc) (callerEmail : String)
    (emailQuery : Option String) : List UserDoc :=
  match emailQuery with
  | some q =>
    if q ≠ "" then (users.filter (fun u => regexTestCI q u.email)).take 10
    else users.filter (fun u => u.email != callerEmail)
  | none => users.filter (fun u => u.email != callerEmail)

/-! ### Theorems -/

/-- `updateOneSet` never changes the number of records. -/
theorem updateOneSet_length (p : α → Bool) (f : α → α) (l : List α) :
    (updateOneSet p f l).length = l.length := by
  induction l with
  | nil => rfl
  | cons x xs ih =>
    simp only [updateOneSet]
    split
    · simp
    · simp [ih]

/-- Each position of an `updateOneSet` result is either the original
record or the update applied to an original record that matched the
filter. -/
theorem updateOneSet_getElem? (p : α → Bool) (f : α → α) (l : List α)
    (i : Nat) :
    (updateOneSet p f l)[i]? = l[i]? ∨
    ∃ x, l[i]? = some x ∧ p x = true ∧
      (updateOneSet p f l)[i]? = some (f x) := by
  induction l generalizing i with
  | nil => left; rfl
  | cons x xs ih =>
    by_cases hp : p x
    · cases i with
      | zero => right; exact ⟨x, by simp, hp, by simp [updateOneSet, hp]⟩
      | succ n => left; simp [updateOneSet, hp]
    · cases i with
      | zero => left; simp [updateOneSet, hp]
      | succ n =>
        rcases ih n with h | ⟨y, h1, h2, h3⟩
        · left; simpa [updateOneSet, hp] using h
        · right; exact ⟨y, by simpa using h1, h2, by simpa [updateOneSet, hp] using h3⟩

/-- The record found by `findOne` sits at a position where `updateOneSet`
applies the update. -/
theorem updateOneSet_find? (p : α → Bool) (f : α → α) (l : List α)
    (x : α) (hf : l.find? p = some x) :
    ∃ i : Nat, l[i]? = some x ∧ p x = true ∧
      (updateOneSet p f l)[i]? = some (f x) := by
  induction l with
  | nil => simp at hf
  | cons y ys ih =>
    by_cases hp : p y
    · rw [List.find?_cons_of_pos _ hp] at hf
      have hx : y = x := by simpa using hf
      subst hx
      exact ⟨0, by simp, hp, by simp [updateOneSet, hp]⟩
    · rw [List.find?_cons_of_neg _ hp] at hf
      obtain ⟨i, h1, h2, h3⟩ := ih hf
      exact ⟨i + 1, by simpa using h1, h2, by simpa [updateOneSet, hp] using h3⟩

/-- An update that does not affect the counted predicate leaves
`countDocuments` unchanged. -/
theorem countDocuments_updateOneSet (p q : α → Bool) (f : α → α)
    (l : List α) (hq : ∀ x, q (f x) = q x) :
    countDocuments q (updateOneSet p f l) = countDocuments q l := by
  induction l with
  | nil => rfl
  | cons x xs ih =>
    simp only [updateOneSet]
    split
    · simp only [countDocuments, List.filter]
      rw [hq]
      split <;> simp [countDocuments] at ih ⊢
    · simp only [countDocuments, List.filter]
      split <;> simp [countDocuments] at ih ⊢ <;> exact ih

/-! ### Helper lemmas about the gate model -/

/-- A malformed bearer header is rejected by `verifyFirebaseToken`
without consulting the oracle. -/
theorem verifyFirebaseToken_malformed (oracle : String → Option String)
    (h : Option String) (hm : wellFormedBearer h = false) :
    verifyFirebaseToken oracle h = ⟨Except.error 401, false⟩ := by
  cases h with
  | none => rfl
  | some s =>
    simp only [wellFormedBearer, Bool.and_eq_false_iff] at hm
    simp only [verifyFirebaseToken]
    rcases hm with hm | hm
    · simp [hm]
    · have hm2 : (bearerToken s == "") = true := by
        revert hm; cases hx : bearerToken s == "" <;> simp
      have hm3 : bearerToken s = "" := eq_of_beq hm2
      by_cases hs : startsWithBearer s = true
      · simp [hs, hm3]
      · simp [hs]

/-- In both snapshot route tables, every chain that contains the
authentication gate has it as its first element. -/
theorem routes_auth_first :
    ∀ r ∈ allRoutes, Gate.auth ∈ r.gates →
      r.gates.head? = some Gate.auth := by
  decide

/-- In both snapshot route tables, a chain containing a role gate is
exactly the authentication gate followed by that role gate. -/
theorem routes_role_shape :
    ∀ r ∈ allRoutes,
      (Gate.admin ∈ r.gates → r.gates = [Gate.auth, Gate.admin]) ∧
      (Gate.teacher ∈ r.gates → r.gates = [Gate.auth, Gate.teacher]) := by
  decide

/-- If the authentication step succeeded, the header was present and the
oracle accepted its token part, returning the decoded email. -/
theorem verifyFirebaseToken_ok (oracle : String → Option String)
    (h : Option String) (email : String) (b : Bool)
    (hv : verifyFirebaseToken oracle h = ⟨Except.ok email, b⟩) :
    ∃ s, h = some s ∧ oracle (bearerToken s) = some email := by
  cases h with
  | none => simp [verifyFirebaseToken] at hv
  | some s =>
    refine ⟨s, rfl, ?_⟩
    by_cases hs : startsWithBearer s = true
    · simp only [verifyFirebaseToken, hs, if_true] at hv
      by_cases ht : bearerToken s = ""
      · simp [ht] at hv
      · simp only [ht, if_false] at hv
        cases ho : oracle (bearerToken s) with
        | none => rw [ho] at hv; simp at hv
        | some e =>
          rw [ho] at hv
          simp only [AuthStep.mk.injEq, Except.ok.injEq] at hv
          rw [hv.1]
    · simp [verifyFirebaseToken, hs] at hv

/-- A present header with the `Bearer ` scheme, a non-empty token and an
accepting oracle makes the authentication step succeed. -/
theorem verifyFirebaseToken_accepts (oracle : String → Option String)
    (s : String) (email : String)
    (hs : startsWithBearer s = true)
    (ht : bearerToken s ≠ "")
    (ho : oracle (bearerToken s) = some email) :
    verifyFirebaseToken oracle (some s) = ⟨Except.ok email, true⟩ := by
  simp [verifyFirebaseToken, hs, ht, ho]

/-- Running a chain in which every role gate is preceded by the
authentication gate never crashes, and performs a user-record lookup
only if the oracle accepted the request's bearer token. -/
theorem runGates_safe (oracle : String → Option String)
    (users : List UserDoc) (h : Option String) :
    ∀ (gs : List Gate) (ctx : Option String) (tr : Trace),
      rolePrecededByAuth gs ctx.isSome = true →
      (ctx.isSome = true →
        ∃ s e', h = some s ∧ oracle (bearerToken s) = some e') →
      (runGates oracle users h gs ctx tr).1 ≠ Except.error Failure.crash ∧
      (tr.storeReads < (runGates oracle users h gs ctx tr).2.storeReads →
        ∃ s e', h = some s ∧ oracle (bearerToken s) = some e') := by
  intro gs
  induction gs with
  | nil =>
    intro ctx tr _ _
    refine ⟨by simp [runGates], ?_⟩
    intro hlt
    simp only [runGates] at hlt
    exact absurd hlt (Nat.lt_irrefl _)
  | cons g rest ih =>
    intro ctx tr hpre hctx
    cases g with
    | auth =>
      cases hstep : verifyFirebaseToken oracle h with
      | mk result b =>
        cases result with
        | error c =>
          refine ⟨by simp [runGates, hstep], ?_⟩
          intro hlt
          simp only [runGates, hstep] at hlt
          exact absurd hlt (Nat.lt_irrefl _)
        | ok email =>
          obtain ⟨s, hs1, hs2⟩ :=
            verifyFirebaseToken_ok oracle h email b hstep
          have hpre' :
              rolePrecededByAuth rest (some email : Option String).isSome
                = true := by
            simpa [rolePrecededByAuth] using hpre
          have ihr := ih (some email)
            { tr with oracleInvoked := tr.oracleInvoked || b } hpre'
            (fun _ => ⟨s, email, hs1, hs2⟩)
          refine ⟨?_, fun _ => ⟨s, email, hs1, hs2⟩⟩
          simpa [runGates, hstep] using ihr.1
    | admin =>
      cases hc : ctx with
      | none =>
        rw [hc] at hpre
        simp [rolePrecededByAuth] at hpre
      | some email =>
        rw [hc] at hpre hctx
        obtain ⟨s, e', hs1, hs2⟩ := hctx (by simp)
        cases hva : verifyAdmin users email with
        | error c =>
          refine ⟨by simp [runGates, hva], fun _ => ⟨s, e', hs1, hs2⟩⟩
        | ok u =>
          have hpre' :
              rolePrecededByAuth rest (some email : Option String).isSome
                = true := by
            simpa [rolePrecededByAuth] using hpre
          have ihr := ih (some email)
            { tr with storeReads := tr.storeReads + 1 } hpre'
            (fun _ => ⟨s, e', hs1, hs2⟩)
          refine ⟨?_, fun _ => ⟨s, e', hs1, hs2⟩⟩
          simpa [runGates, hva] using ihr.1
    | teacher =>
      cases hc : ctx with
      | none =>
        rw [hc] at hpre
        simp [rolePrecededByAuth] at hpre
      | some email =>
        rw [hc] at hpre hctx
        obtain ⟨s, e', hs1, hs2⟩ := hctx (by simp)
        cases hvt : verifyTeacher users email with
        | error c =>
          refine ⟨by simp [runGates, hvt], fun _ => ⟨s, e', hs1, hs2⟩⟩
        | ok u =>
          have hpre' :
              rolePrecededByAuth rest (some email : Option String).isSome
                = true := by
            simpa [rolePrecededByAuth] using hpre
          have ihr := ih (some email)
            { tr with storeReads := tr.storeReads + 1 } hpre'
            (fun _ => ⟨s, e', hs1, hs2⟩)
          refine ⟨?_, fun _ => ⟨s, e', hs1, hs2⟩⟩
          simpa [runGates, hvt] using ihr.1

/-! ### Claim theorems about the gate pipeline -/

/-- C1.  For every request to a route guarded by the authentication gate
whose Authorization header is absent, does not start with `Bearer `, or
has an empty token part after the prefix, the response is 401
Unauthorized, the identity-verification oracle is not invoked, no store
call occurs, and the handler body does not run. -/
theorem auth_gate_malformed_401 (oracle : String → Option String)
    (users : List UserDoc) (h : Option String) (r : Route)
    (hr : r ∈ allRoutes) (hg : Gate.auth ∈ r.gates)
    (hm : wellFormedBearer h = false) :
    runRoute oracle users h r.gates =
      (Except.error (Failure.http 401), ⟨false, 0, false⟩) := by
  have hhead := routes_auth_first r hr hg
  obtain ⟨rest, hrest⟩ : ∃ rest, r.gates = Gate.auth :: rest := by
    cases hgs : r.gates with
    | nil => rw [hgs] at hhead; simp at hhead
    | cons a t =>
      rw [hgs] at hhead
      simp only [List.head?_cons, Option.some.injEq] at hhead
      exact ⟨t, by rw [hhead]⟩
  rw [hrest]
  simp [runRoute, runGates, verifyFirebaseToken_malformed oracle h hm]

/-- Concrete instance of `auth_gate_malformed_401`: a request to the
admin-gated `GET /users/search` with a `Token abc` header is rejected
with 401 and no oracle call, store read, or handler run. -/
theorem auth_gate_malformed_401_witness :
    runRoute (fun _ => none) [] (some "Token abc")
        [Gate.auth, Gate.admin] =
      (Except.error (Failure.http 401), ⟨false, 0, false⟩) :=
  auth_gate_malformed_401 (fun _ => none) [] (some "Token abc")
    ⟨"GET", "/users/search", [Gate.auth, Gate.admin]⟩
    (by decide) (by decide) (by decide)

/-- C2.  On a role-gated route, once the bearer token verified
successfully: a missing user record for the decoded email, or a record
whose role differs from the required one, produces 403 Forbidden with
the handler never running; a record with exactly the required role lets
the gate pass and the handler execute. -/
theorem role_gate_forbidden_or_pass (oracle : String → Option String)
    (users : List UserDoc) (s : String) (email : String) (r : Route)
    (hr : r ∈ allRoutes)
    (hs : startsWithBearer s = true)
    (ht : bearerToken s ≠ "")
    (ho : oracle (bearerToken s) = some email) :
    (Gate.admin ∈ r.gates →
      (users.find? (fun u => u.email == email) = none →
        runRoute oracle users (some s) r.gates =
          (Except.error (Failure.http 403), ⟨true, 1, false⟩)) ∧
      (∀ u, users.find? (fun u => u.email == email) = some u →
        u.role ≠ "admin" →
        runRoute oracle users (some s) r.gates =
          (Except.error (Failure.http 403), ⟨true, 1, false⟩)) ∧
      (∀ u, users.find? (fun u => u.email == email) = some u →
        u.role = "admin" →
        runRoute oracle users (some s) r.gates =
          (Except.ok (some email), ⟨true, 1, true⟩))) ∧
    (Gate.teacher ∈ r.gates →
      (users.find? (fun u => u.email == email) = none →
        runRoute oracle users (some s) r.gates =
          (Except.error (Failure.http 403), ⟨true, 1, false⟩)) ∧
      (∀ u, users.find? (fun u => u.email == email) = some u →
        u.role ≠ "teacher" →
        runRoute oracle users (some s) r.gates =
          (Except.error (Failure.http 403), ⟨true, 1, false⟩)) ∧
      (∀ u, users.find? (fun u => u.email == email) = some u →
        u.role = "teacher" →
        runRoute oracle users (some s) r.gates =
          (Except.ok (some email), ⟨true, 1, true⟩))) := by
  have hshape := routes_role_shape r hr
  have hv := verifyFirebaseToken_accepts oracle s email hs ht ho
  constructor
  · intro hmem
    rw [hshape.1 hmem]
    refine ⟨?_, ?_, ?_⟩
    · intro hfind
      simp [runRoute, runGates, hv, verifyAdmin, hfind]
    · intro u hfind hrole
      simp [runRoute, runGates, hv, verifyAdmin, hfind, hrole]
    · intro u hfind hrole
      simp [runRoute, runGates, hv, verifyAdmin, hfind, hrole]
  · intro hmem
    rw [hshape.2 hmem]
    refine ⟨?_, ?_, ?_⟩
    · intro hfind
      simp [runRoute, runGates, hv, verifyTeacher, hfind]
    · intro u hfind hrole
      simp [runRoute, runGates, hv, verifyTeacher, hfind, hrole]
    · intro u hfind hrole
      simp [runRoute, runGates, hv, verifyTeacher, hfind, hrole]

/-- Concrete instance of `role_gate_forbidden_or_pass`: on
`GET /users/search`, a verified caller whose stored role is `admin`
passes both gates and the handler runs. -/
theorem role_gate_forbidden_or_pass_witness :
    runRoute (fun t => if t == "tok" then some "a@x.com" else none)
        [⟨"a@x.com", "admin", "verified", 0, 0, ""⟩]
        (some "Bearer tok") [Gate.auth, Gate.admin] =
      (Except.ok (some "a@x.com"), ⟨true, 1, true⟩) :=
  ((role_gate_forbidden_or_pass
      (fun t => if t == "tok" then some "a@x.com" else none)
      [⟨"a@x.com", "admin", "verified", 0, 0, ""⟩]
      "Bearer tok" "a@x.com"
      ⟨"GET", "/users/search", [Gate.auth, Gate.admin]⟩
      (by decide) (by decide) (by decide) (by decide)).1
    (by decide)).2.2
    ⟨"a@x.com", "admin", "verified", 0, 0, ""⟩ (by decide) rfl

/-- C3.  On every registered route carrying a role gate, the
authentication gate is registered strictly before it (checked by the
`rolePrecededByAuth` scan), and consequently running the chain can never
read `req.decoded` unpopulated (no crash) and never performs a role
gate's user-record lookup unless the oracle accepted the request's
bearer token. -/
theorem role_gate_after_auth (r : Route) (hr : r ∈ allRoutes) :
    rolePrecededByAuth r.gates false = true ∧
    ∀ (oracle : String → Option String) (users : List UserDoc)
      (h : Option String),
      (runRoute oracle users h r.gates).1 ≠ Except.error Failure.crash ∧
      (0 < (runRoute oracle users h r.gates).2.storeReads →
        ∃ s e', h = some s ∧ oracle (bearerToken s) = some e') := by
  have htab : ∀ r ∈ allRoutes, rolePrecededByAuth r.gates false = true := by
    decide
  refine ⟨htab r hr, ?_⟩
  intro oracle users h
  have hsafe := runGates_safe oracle users h r.gates none ⟨false, 0, false⟩
    (htab r hr) (fun hc => by simp at hc)
  cases hrg : runGates oracle users h r.gates none ⟨false, 0, false⟩ with
  | mk res tr =>
    rw [hrg] at hsafe
    cases res with
    | ok ctx =>
      refine ⟨by simp [runRoute, hrg], ?_⟩
      intro hlt
      exact hsafe.2 (by simpa [runRoute, hrg] using hlt)
    | error e =>
      refine ⟨?_, ?_⟩
      · have h1 := hsafe.1
        simpa [runRoute, hrg] using h1
      · intro hlt
        exact hsafe.2 (by simpa [runRoute, hrg] using hlt)

/-- C4 counterexample.  In the earliest snapshot
(src/unnamed/part_000 34-57) the already-exists branch has no early
return: a repeat `POST /user` with an existing email refreshes
`last_loggedIn` but still inserts, leaving two records with that email
instead of exactly one. -/
theorem post_user_duplicate_insert :
    countDocuments (fun u => u.email == "a@x.com")
      (postUserPart000 [⟨"a@x.com", "student", 1, 1, "n"⟩]
        ⟨"a@x.com", "n"⟩ 5 9) = 2 := by
  decide

/-- C4 (amended).  In the latest snapshot (src/index.js 135-162)
`POST /user` is an upsert by the business key email: with no matching
record, exactly one new record with role `student`, status
`not-verified` and both timestamps is appended; with a matching record,
the response is 200 `already exists`, the number of records with that
email is unchanged (no second insert), and the only change to the store
is the `last_loggedIn` field of a record carrying that email.  In the
earliest snapshot (src/unnamed/part_000), where the already-exists
branch has no early return and no status is stamped, a call with an
existing email refreshes `last_loggedIn` and then still inserts a
second record with that email, responding with the insert result. -/
theorem post_user_upsert (users : List UserDoc) (body : UserReqBody)
    (now nowUpd : Nat) :
    (users.find? (fun u => u.email == body.email) = none →
      postUser users body now nowUpd =
        (users ++ [⟨body.email, "student", "not-verified", now, now,
          body.extra⟩], 200, true) ∧
      countDocuments (fun u => u.email == body.email)
          (postUser users body now nowUpd).1 =
        countDocuments (fun u => u.email == body.email) users + 1) ∧
    (∀ u0, users.find? (fun u => u.email == body.email) = some u0 →
      (postUser users body now nowUpd).2 = (200, false) ∧
      (postUser users body now nowUpd).1.length = users.length ∧
      countDocuments (fun u => u.email == body.email)
          (postUser users body now nowUpd).1 =
        countDocuments (fun u => u.email == body.email) users ∧
      (∃ i : Nat, users[i]? = some u0 ∧
        (postUser users body now nowUpd).1[i]? =
          some { u0 with last_loggedIn := nowUpd } ∧
        u0.email = body.email) ∧
      (∀ i : Nat, (postUser users body now nowUpd).1[i]? = users[i]? ∨
        ∃ x, users[i]? = some x ∧ x.email = body.email ∧
          (postUser users body now nowUpd).1[i]? =
            some { x with last_loggedIn := nowUpd })) ∧
    (∀ (users0 : List UserDocV0) (u0 : UserDocV0),
      users0.find? (fun u => u.email == body.email) = some u0 →
      postUserPart000 users0 body now nowUpd =
        updateOneSet (fun u => u.email == body.email)
          (fun u => { u with last_loggedIn := nowUpd }) users0 ++
        [⟨body.email, "student", now, now, body.extra⟩] ∧
      countDocuments (fun u => u.email == body.email)
          (postUserPart000 users0 body now nowUpd) =
        countDocuments (fun u => u.email == body.email) users0 + 1) := by
  refine ⟨?_, ?_, ?_⟩
  · intro hf
    constructor
    · simp [postUser, hf]
    · simp only [postUser, hf]
      simp [countDocuments, List.filter_append]
  · intro u0 hf
    have hmail : u0.email = body.email := by
      have := List.find?_some hf
      simpa using this
    refine ⟨by simp [postUser, hf], ?_, ?_, ?_, ?_⟩
    · simp [postUser, hf, updateOneSet_length]
    · simp only [postUser, hf]
      exact countDocuments_updateOneSet _ _ _ users (fun x => rfl)
    · obtain ⟨i, h1, h2, h3⟩ := updateOneSet_find?
        (fun u => u.email == body.email)
        (fun u => { u with last_loggedIn := nowUpd }) users u0 hf
      exact ⟨i, h1, by simpa [postUser, hf] using h3, hmail⟩
    · intro i
      rcases updateOneSet_getElem? (fun u => u.email == body.email)
        (fun u => { u with last_loggedIn := nowUpd }) users i with h | ⟨x, h1, h2, h3⟩
      · left; simpa [postUser, hf] using h
      · right
        exact ⟨x, h1, by simpa using h2, by simpa [postUser, hf] using h3⟩
  · intro users0 u0 hf
    refine ⟨by simp [postUserPart000, hf], ?_⟩
    have hc : (List.filter (fun u : UserDocV0 => u.email == body.email)
        (updateOneSet (fun u => u.email == body.email)
          (fun u => { u with last_loggedIn := nowUpd }) users0)).length =
        (List.filter (fun u : UserDocV0 => u.email == body.email)
          users0).length :=
      countDocuments_updateOneSet _ _ _ users0 (fun x => rfl)
    simp only [postUserPart000, hf]
    simp [countDocuments, List.filter_append, hc]

/-- Concrete instance of `post_user_upsert`, repeat sign-in: a second
`POST /user` with an existing email answers 200 without inserting and
refreshes only `last_loggedIn`. -/
theorem post_user_upsert_witness :
    (postUser [⟨"a@x.com", "student", "not-verified", 1, 1, "n"⟩]
        ⟨"a@x.com", "n"⟩ 5 9).2 = (200, false) ∧
    (postUser [⟨"a@x.com", "student", "not-verified", 1, 1, "n"⟩]
        ⟨"a@x.com", "n"⟩ 5 9).1.length = 1 :=
  ⟨((post_user_upsert [⟨"a@x.com", "student", "not-verified", 1, 1, "n"⟩]
      ⟨"a@x.com", "n"⟩ 5 9).2.1 ⟨"a@x.com", "student", "not-verified", 1, 1, "n"⟩
      (by decide)).1,
   ((post_user_upsert [⟨"a@x.com", "student", "not-verified", 1, 1, "n"⟩]
      ⟨"a@x.com", "n"⟩ 5 9).2.1 ⟨"a@x.com", "student", "not-verified", 1, 1, "n"⟩
      (by decide)).2.1⟩

/-- C10.  When `POST /teacher-request` is called for an email that
already has a request record, the matching record's status is set back
to `pending` and its `last_request_at` refreshed, every other field of
every record is left unchanged, and no new record is inserted. -/
theorem teacher_request_repeat_spec (treqs : List TReq) (body : TReqBody)
    (newId : String) (now nowUpd : Nat) (t0 : TReq)
    (hf : treqs.find? (fun t => t.email == body.email) = some t0) :
    (postTeacherRequest treqs body newId now nowUpd).2 = (200, false) ∧
    (postTeacherRequest treqs body newId now nowUpd).1.length =
      treqs.length ∧
    (∃ i : Nat, treqs[i]? = some t0 ∧
      (postTeacherRequest treqs body newId now nowUpd).1[i]? =
        some { t0 with status := "pending", last_request_at := nowUpd } ∧
      t0.email = body.email) ∧
    (∀ i : Nat,
      (postTeacherRequest treqs body newId now nowUpd).1[i]? = treqs[i]? ∨
      ∃ x, treqs[i]? = some x ∧ x.email = body.email ∧
        (postTeacherRequest treqs body newId now nowUpd).1[i]? =
          some { x with status := "pending", last_request_at := nowUpd }) := by
  have hmail : t0.email = body.email := by
    have := List.find?_some hf
    simpa using this
  refine ⟨by simp [postTeacherRequest, hf], ?_, ?_, ?_⟩
  · simp [postTeacherRequest, hf, updateOneSet_length]
  · obtain ⟨i, h1, h2, h3⟩ := updateOneSet_find?
      (fun t => t.email == body.email)
      (fun t => { t with status := "pending", last_request_at := nowUpd })
      treqs t0 hf
    exact ⟨i, h1, by simpa [postTeacherRequest, hf] using h3, hmail⟩
  · intro i
    rcases updateOneSet_getElem? (fun t => t.email == body.email)
      (fun t => { t with status := "pending", last_request_at := nowUpd })
      treqs i with h | ⟨x, h1, h2, h3⟩
    · left; simpa [postTeacherRequest, hf] using h
    · right
      exact ⟨x, h1, by simpa using h2, by simpa [postTeacherRequest, hf] using h3⟩

/-- Concrete instance of `teacher_request_repeat_spec`: re-submitting a
request whose record was `rejected` flips it back to `pending` without
inserting. -/
theorem teacher_request_repeat_spec_witness :
    (postTeacherRequest [⟨"r1", "t@x.com", "rejected", 1, 1, "exp"⟩]
        ⟨"t@x.com", "exp"⟩ "r2" 5 9).2 = (200, false) ∧
    (postTeacherRequest [⟨"r1", "t@x.com", "rejected", 1, 1, "exp"⟩]
        ⟨"t@x.com", "exp"⟩ "r2" 5 9).1.length = 1 :=
  ⟨(teacher_request_repeat_spec [⟨"r1", "t@x.com", "rejected", 1, 1, "exp"⟩]
      ⟨"t@x.com", "exp"⟩ "r2" 5 9 ⟨"r1", "t@x.com", "rejected", 1, 1, "exp"⟩
      (by decide)).1,
   (teacher_request_repeat_spec [⟨"r1", "t@x.com", "rejected", 1, 1, "exp"⟩]
      ⟨"t@x.com", "exp"⟩ "r2" 5 9 ⟨"r1", "t@x.com", "rejected", 1, 1, "exp"⟩
      (by decide)).2.1⟩

/-- Concrete instance of `role_gate_after_auth` at the admin-gated
`PATCH /make-admin/:id` route: the ordering scan holds and a request
with no header neither crashes nor reads the user store. -/
theorem role_gate_after_auth_witness :
    rolePrecededByAuth [Gate.auth, Gate.admin] false = true ∧
    (runRoute (fun _ => none) [] none [Gate.auth, Gate.admin]).1 ≠
      Except.error Failure.crash :=
  ⟨(role_gate_after_auth
      ⟨"PATCH", "/make-admin/:id", [Gate.auth, Gate.admin]⟩ (by decide)).1,
   ((role_gate_after_auth
      ⟨"PATCH", "/make-admin/:id", [Gate.auth, Gate.admin]⟩ (by decide)).2
      (fun _ => none) [] none).1⟩

/-- C8.  `PATCH /teacher-request-status/:id` performs two sequential,
non-transactional updates: the status update on the teacher-request
store is applied in every case; when the second (role) update fails, the
first is not rolled back, the user store is left as it was, and the
response surfaces the failure as 500; when it succeeds, the role update
is applied and the response is 200. -/
theorem teacher_request_status_partial_failure (treqs : List TReq)
    (users : List UserDoc) (id status role email : String)
    (secondUpdateFails : Bool) :
    (teacherRequestStatusUpdate treqs users id status role email
        secondUpdateFails).1 =
      updateOneSet (fun t => t.tid == id)
        (fun t => { t with status := status }) treqs ∧
    (secondUpdateFails = true →
      (teacherRequestStatusUpdate treqs users id status role email
          secondUpdateFails).2.1 = users ∧
      (teacherRequestStatusUpdate treqs users id status role email
          secondUpdateFails).2.2 = 500) ∧
    (secondUpdateFails = false →
      (teacherRequestStatusUpdate treqs users id status role email
          secondUpdateFails).2.1 =
        updateOneSet (fun u => u.email == email)
          (fun u => { u with role := role }) users ∧
      (teacherRequestStatusUpdate treqs users id status role email
          secondUpdateFails).2.2 = 200) := by
  cases secondUpdateFails
  · simp [teacherRequestStatusUpdate]
  · simp [teacherRequestStatusUpdate]

/-- Concrete instance of `teacher_request_status_partial_failure`: the
role update fails after the status update succeeded — the request
record keeps its new status, the user keeps the old role, and the
client sees 500. -/
theorem teacher_request_status_partial_failure_witness :
    (teacherRequestStatusUpdate [⟨"r1", "t@x.com", "pending", 0, 0, ""⟩]
        [⟨"t@x.com", "student", "verified", 0, 0, ""⟩]
        "r1" "approved" "teacher" "t@x.com" true).2.1 =
      [⟨"t@x.com", "student", "verified", 0, 0, ""⟩] ∧
    (teacherRequestStatusUpdate [⟨"r1", "t@x.com", "pending", 0, 0, ""⟩]
        [⟨"t@x.com", "student", "verified", 0, 0, ""⟩]
        "r1" "approved" "teacher" "t@x.com" true).2.2 = 500 :=
  (teacher_request_status_partial_failure
    [⟨"r1", "t@x.com", "pending", 0, 0, ""⟩]
    [⟨"t@x.com", "student", "verified", 0, 0, ""⟩]
    "r1" "approved" "teacher" "t@x.com" true).2.1 rfl

/-- The page size after the JavaScript fallback is always positive. -/
theorem jsLimit_pos (lp : Option Nat) : 0 < jsLimit lp := by
  cases lp with
  | none => simp [jsLimit]
  | some l =>
    by_cases h : l = 0
    · simp [jsLimit, h]
    · simp only [jsLimit, h, if_false]
      omega

/-- C5 counterexample.  The claim says the page index is clamped to a
default when absent; in the code only the page size has a fallback —
`parseInt(req.query.page)` is `NaN` when `page` is absent, the skip
becomes `NaN`, and the request fails instead of serving a default
page. -/
theorem pagination_no_default_page :
    approvedClassesPagination
      [⟨"c1", "t@x.com", "approved", 0, 10, ""⟩] none (some 6) = none := rfl

/-- C5 (amended).  For a present page index `p`: the page size defaults
to 6 when the limit parameter is absent (or 0); the total is the count
of `status = approved` records under the same filter as the page query;
`totalPages` is the ceiling of `total / limit` (characterized by its
Galois property); the data is the slice skipping `p * limit` records
with at most `limit` records; an out-of-range page yields an empty data
array with `total` unchanged.  In particular for page size 6 and a
filtered total of 13, `totalPages = 3`, the third page has exactly the
one remaining record, and page 5 is empty with total still 13.  When
the page parameter is absent, the request fails (`none`) rather than
defaulting. -/
theorem pagination_spec :
    (∀ (classes : List ClassDoc) (p : Nat) (lp : Option Nat),
      ∃ resp, approvedClassesPagination classes (some p) lp = some resp ∧
        resp.total =
          countDocuments (fun c => c.status == "approved") classes ∧
        resp.pageNo = p ∧
        resp.data =
          ((classes.filter (fun c => c.status == "approved")).drop
            (p * jsLimit lp)).take (jsLimit lp) ∧
        resp.data.length ≤ jsLimit lp ∧
        (∀ k, resp.totalPages ≤ k ↔ resp.total ≤ k * jsLimit lp) ∧
        (resp.total ≤ p * jsLimit lp → resp.data = [])) ∧
    approvedClassesPagination paginationStore (some 2) none =
      some ⟨13, 2, 3, [⟨"c", "t@x.com", "approved", 0, 12, ""⟩]⟩ ∧
    approvedClassesPagination paginationStore (some 5) none =
      some ⟨13, 5, 3, []⟩ := by
  refine ⟨?_, by decide, by decide⟩
  intro classes p lp
  have hL := jsLimit_pos lp
  refine ⟨_, rfl, rfl, rfl, rfl, List.length_take_le _ _, ?_, ?_⟩
  · dsimp only
    intro k
    constructor
    · intro hk
      have h1 : ((classes.filter (fun c => c.status == "approved")).length
          + jsLimit lp - 1) / jsLimit lp < k + 1 := Nat.lt_succ_of_le hk
      have h2 := (Nat.div_lt_iff_lt_mul hL).1 h1
      rw [Nat.succ_mul] at h2
      omega
    · intro hk
      have h2 : (classes.filter (fun c => c.status == "approved")).length
          + jsLimit lp - 1 < (k + 1) * jsLimit lp := by
        rw [Nat.succ_mul]
        omega
      have h1 := (Nat.div_lt_iff_lt_mul hL).2 h2
      omega
  · dsimp only
    intro hout
    have hdrop :
        (classes.filter (fun c => c.status == "approved")).drop
          (p * jsLimit lp) = [] :=
      List.drop_eq_nil_of_le hout
    simp [hdrop]

/-- Concrete instance of `pagination_spec`: the third page of the
13-record sample store with the default size. -/
theorem pagination_spec_witness :
    approvedClassesPagination paginationStore (some 2) none =
      some ⟨13, 2, 3, [⟨"c", "t@x.com", "approved", 0, 12, ""⟩]⟩ :=
  pagination_spec.2.1

/-- Members of `insertEnrolledDesc` come from the inserted element or
the original list. -/
theorem mem_insertEnrolledDesc {c x : ClassDoc} {l : List ClassDoc}
    (h : x ∈ insertEnrolledDesc c l) : x = c ∨ x ∈ l := by
  induction l with
  | nil => simpa [insertEnrolledDesc] using h
  | cons d ds ih =>
    simp only [insertEnrolledDesc] at h
    split at h
    · simpa using h
    · rcases List.mem_cons.1 h with h1 | h1
      · right; simp [h1]
      · rcases ih h1 with h2 | h2
        · left; exact h2
        · right; simp [h2]

/-- Sorting by `enrolled` does not invent records. -/
theorem mem_sortEnrolledDesc {x : ClassDoc} {l : List ClassDoc}
    (h : x ∈ sortEnrolledDesc l) : x ∈ l := by
  induction l with
  | nil => simp [sortEnrolledDesc] at h
  | cons c cs ih =>
    rcases mem_insertEnrolledDesc h with h1 | h1
    · simp [h1]
    · simp [ih h1]

/-- C6 counterexample.  A pending class with one enrollment is returned
by the public `GET /top-enrolled-classes` listing, so not every record
of a public listing has status `approved`. -/
theorem public_listing_not_all_approved :
    ¬ (∀ c ∈ topEnrolledClasses [⟨"c1", "t@x.com", "pending", 5, 10, ""⟩],
        c.status = "approved") := by
  decide

/-- C6 (amended).  Status gates class visibility on the approved-classes
listings only: every record served by `GET /approved-classes-pagination`
has status `approved`, and the admin-only `GET /admin-add-class` lists
every class regardless of status; the public `GET /top-enrolled-classes`
endpoint instead filters on `enrolled > 0` alone (its records come from
the store but may have any status). -/
theorem listing_status_visibility :
    (∀ (classes : List ClassDoc) (p : Nat) (lp : Option Nat)
      (resp : PageResp),
      approvedClassesPagination classes (some p) lp = some resp →
      ∀ c ∈ resp.data, c.status = "approved") ∧
    (∀ classes : List ClassDoc, adminAddClass classes = classes) ∧
    (∀ classes : List ClassDoc, ∀ c ∈ topEnrolledClasses classes,
      0 < c.enrolled ∧ c ∈ classes) := by
  refine ⟨?_, fun _ => rfl, ?_⟩
  · intro classes p lp resp hresp c hc
    simp only [approvedClassesPagination, Option.some.injEq] at hresp
    subst hresp
    simp only at hc
    have h1 : c ∈ (classes.filter
        (fun c => c.status == "approved")).drop (p * jsLimit lp) :=
      List.take_subset _ _ hc
    have h2 : c ∈ classes.filter (fun c => c.status == "approved") :=
      List.drop_subset _ _ h1
    have h3 := (List.mem_filter.1 h2).2
    simpa using h3
  · intro classes c hc
    have h1 : c ∈ sortEnrolledDesc
        (classes.filter (fun c => 0 < c.enrolled)) :=
      List.take_subset _ _ hc
    have h2 := mem_sortEnrolledDesc h1
    have h3 := List.mem_filter.1 h2
    exact ⟨by simpa using h3.2, h3.1⟩

/-- Concrete instance of `listing_status_visibility`: the single record
of a concrete first pagination page is approved. -/
theorem listing_status_visibility_witness :
    (⟨"c1", "t@x.com", "approved", 2, 10, ""⟩ : ClassDoc).status =
      "approved" :=
  listing_status_visibility.1
    [⟨"c1", "t@x.com", "approved", 2, 10, ""⟩] 0 none
    ⟨1, 0, 1, [⟨"c1", "t@x.com", "approved", 2, 10, ""⟩]⟩
    (by decide) ⟨"c1", "t@x.com", "approved", 2, 10, ""⟩ (by decide)

/-- C7.  `POST /create-payment-intent`: with no matching class the
response is 404 and the provider is never called; with a match the
provider is called once with the price converted to minor units
(`price * 100`), a provider success yields a response carrying only the
client secret, and a provider error yields 500. -/
theorem create_payment_intent_spec (classes : List ClassDoc)
    (courseId : String) (provider : Int → ProviderResult) :
    (classes.find? (fun c => c.cid == courseId) = none →
      createPaymentIntent classes courseId provider =
        ⟨PayResp.notFound, false, none⟩ ∧
      payStatus (createPaymentIntent classes courseId provider).resp
        = 404) ∧
    (∀ c, classes.find? (fun c => c.cid == courseId) = some c →
      (createPaymentIntent classes courseId provider).providerCalled
        = true ∧
      (createPaymentIntent classes courseId provider).amountArg
        = some (c.price * 100) ∧
      (∀ s, provider (c.price * 100) = ProviderResult.ok s →
        (createPaymentIntent classes courseId provider).resp =
          PayResp.success s ∧
        payStatus (createPaymentIntent classes courseId provider).resp
          = 200) ∧
      (∀ m, provider (c.price * 100) = ProviderResult.err m →
        (createPaymentIntent classes courseId provider).resp =
          PayResp.providerError m ∧
        payStatus (createPaymentIntent classes courseId provider).resp
          = 500)) := by
  constructor
  · intro hf
    refine ⟨by simp [createPaymentIntent, hf], ?_⟩
    simp [createPaymentIntent, hf, payStatus]
  · intro c hf
    refine ⟨?_, ?_, ?_, ?_⟩
    · cases hp : provider (c.price * 100) with
      | ok s => simp [createPaymentIntent, hf, hp]
      | err m => simp [createPaymentIntent, hf, hp]
    · cases hp : provider (c.price * 100) with
      | ok s => simp [createPaymentIntent, hf, hp]
      | err m => simp [createPaymentIntent, hf, hp]
    · intro s hp
      refine ⟨by simp [createPaymentIntent, hf, hp], ?_⟩
      simp [createPaymentIntent, hf, hp, payStatus]
    · intro m hp
      refine ⟨by simp [createPaymentIntent, hf, hp], ?_⟩
      simp [createPaymentIntent, hf, hp, payStatus]

/-- Concrete instance of `create_payment_intent_spec`: a class priced 25
yields a provider call for 2500 minor units and a body holding only the
returned client secret. -/
theorem create_payment_intent_spec_witness :
    (createPaymentIntent [⟨"c1", "t@x.com", "approved", 2, 25, ""⟩]
        "c1" (fun _ => ProviderResult.ok "sec_1")).amountArg =
      some 2500 ∧
    (createPaymentIntent [⟨"c1", "t@x.com", "approved", 2, 25, ""⟩]
        "c1" (fun _ => ProviderResult.ok "sec_1")).resp =
      PayResp.success "sec_1" :=
  ⟨((create_payment_intent_spec
      [⟨"c1", "t@x.com", "approved", 2, 25, ""⟩] "c1"
      (fun _ => ProviderResult.ok "sec_1")).2
      ⟨"c1", "t@x.com", "approved", 2, 25, ""⟩ (by decide)).2.1,
   (((create_payment_intent_spec
      [⟨"c1", "t@x.com", "approved", 2, 25, ""⟩] "c1"
      (fun _ => ProviderResult.ok "sec_1")).2
      ⟨"c1", "t@x.com", "approved", 2, 25, ""⟩ (by decide)).2.2.1
      "sec_1" rfl).1⟩

/-- C9.  `GET /users/search` without an email query (or with an empty
one) returns the stored records excluding every record whose email
equals the caller's verified email; with a non-empty query it returns
the records matched by the case-insensitive regex (limited to 10),
independently of who the caller is — no exclusion of the caller's own
record. -/
theorem users_search_spec (users : List UserDoc) (caller : String)
    (emailQuery : Option String) :
    ((emailQuery = none ∨ emailQuery = some "") →
      usersSearch users caller emailQuery =
        users.filter (fun u => u.email != caller) ∧
      ∀ u ∈ usersSearch users caller emailQuery, u.email ≠ caller) ∧
    (∀ q, emailQuery = some q → q ≠ "" →
      usersSearch users caller emailQuery =
        (users.filter (fun u => regexTestCI q u.email)).take 10 ∧
      (∀ caller2, usersSearch users caller2 emailQuery =
        usersSearch users caller emailQuery) ∧
      ∀ u ∈ usersSearch users caller emailQuery,
        regexTestCI q u.email = true) := by
  constructor
  · intro hq
    have heq : usersSearch users caller emailQuery =
        users.filter (fun u => u.email != caller) := by
      rcases hq with hq | hq
      · rw [hq]; rfl
      · rw [hq]; simp [usersSearch]
    refine ⟨heq, ?_⟩
    intro u hu
    rw [heq] at hu
    have := (List.mem_filter.1 hu).2
    simpa using this
  · intro q hq hne
    subst hq
    have heq : usersSearch users caller (some q) =
        (users.filter (fun u => regexTestCI q u.email)).take 10 := by
      simp [usersSearch, hne]
    refine ⟨heq, ?_, ?_⟩
    · intro caller2
      simp [usersSearch, hne]
    · intro u hu
      rw [heq] at hu
      have h1 := List.take_subset _ _ hu
      exact (List.mem_filter.1 h1).2

/-- Concrete instance of `users_search_spec`: the unfiltered listing by
admin `a@x.com` reduces to the filter that drops the caller's email. -/
theorem users_search_spec_witness :
    usersSearch
      [⟨"a@x.com", "admin", "verified", 0, 0, ""⟩,
       ⟨"b@y.com", "student", "not-verified", 0, 0, ""⟩]
      "a@x.com" none =
    List.filter (fun u => u.email != "a@x.com")
      [⟨"a@x.com", "admin", "verified", 0, 0, ""⟩,
       ⟨"b@y.com", "student", "not-verified", 0, 0, ""⟩] :=
  ((users_search_spec
      [⟨"a@x.com", "admin", "verified", 0, 0, ""⟩,
       ⟨"b@y.com", "student", "not-verified", 0, 0, ""⟩]
      "a@x.com" none).1 (Or.inl rfl)).1

end LearnNest
